import Mathlib

/-!
Verification of the PID-file locking and daemonization module
(`xivo/daemonize.py` of xivo-lib-python).

The Python module is shallowly embedded: the filesystem is an association
list from paths to file contents, and the `/proc` process-introspection
interface is a pair of functions from a process id to the outcome of
reading `/proc/<pid>/cmdline` resp. resolving `/proc/<pid>/exe`.
Python exceptions are explicit outcome constructors. All definitions are
computable so that concrete runs evaluate by `decide` / `rfl`.
-/

namespace Daemonize

/-! ### String helpers (Python builtins used by the module) -/

/-- The code points CPython treats as whitespace (`Py_UNICODE_ISSPACE`):
the characters `str.strip()` removes and `int()` skips around a
numeral. -/
def pySpaceCodes : List Nat :=
  [9, 10, 11, 12, 13, 28, 29, 30, 31, 32, 133, 160, 5760,
   8192, 8193, 8194, 8195, 8196, 8197, 8198, 8199, 8200, 8201, 8202,
   8232, 8233, 8239, 8287, 12288]

/-- Characters Python's `str.strip()` removes. -/
def pyIsSpace (c : Char) : Bool :=
  pySpaceCodes.contains c.toNat

/-- Python `str.strip()`: drop whitespace at both ends. -/
def pyStrip (s : String) : String :=
  ⟨((s.data.dropWhile pyIsSpace).reverse.dropWhile pyIsSpace).reverse⟩

/-- Take characters up to and including the first newline. -/
def takeLine : List Char → List Char
  | [] => []
  | c :: cs => if c = '\n' then [c] else c :: takeLine cs

/-- Python `file.readline()` on a file with content `s`: the first line,
newline included. -/
def readline (s : String) : String := ⟨takeLine s.data⟩

/-- Python `file.read(n)` on a file with content `s`: at most `n`
characters. -/
def pyRead (s : String) (n : Nat) : String := ⟨s.data.take n⟩

/-- Start code points of the runs of ten Unicode decimal digits
(category `Nd`, Unicode 14.0, as used by CPython): each run holds the
digits of value 0 through 9 in order. These are exactly the digit
characters `int()` accepts. -/
def decimalDigitBases : List Nat :=
  [48, 1632, 1776, 1984, 2406, 2534, 2662, 2790, 2918, 3046, 3174, 3302,
   3430, 3558, 3664, 3792, 3872, 4160, 4240, 6112, 6160, 6470, 6608, 6784,
   6800, 6992, 7088, 7232, 7248, 42528, 43216, 43264, 43472, 43504, 43600,
   44016, 65296, 66720, 68912, 69734, 69872, 69942, 70096, 70384, 70736,
   70864, 71248, 71360, 71472, 71904, 72016, 72784, 73040, 73120, 92768,
   92864, 93008, 120782, 120792, 120802, 120812, 120822, 123200, 123632,
   125264, 130032]

/-- The decimal value of a Unicode decimal digit, `none` for any other
character. -/
def pyDigitVal (c : Char) : Option Nat :=
  match decimalDigitBases.find? (fun b => b ≤ c.toNat && c.toNat ≤ b + 9) with
  | some b => some (c.toNat - b)
  | none => none

/-- Continue parsing a decimal numeral after at least one digit: further
digits, with single underscores allowed between digits (Python 3
numeral grouping); a trailing or doubled underscore, or any non-digit,
is a parse failure. -/
def digitsRest (acc : Nat) : List Char → Option Nat
  | [] => some acc
  | '_' :: c :: cs =>
    match pyDigitVal c with
    | some v => digitsRest (10 * acc + v) cs
    | none => none
  | ['_'] => none
  | c :: cs =>
    match pyDigitVal c with
    | some v => digitsRest (10 * acc + v) cs
    | none => none

/-- Parse a nonempty underscore-grouped run of Unicode decimal digits;
an underscore may not lead. -/
def parseDecimal : List Char → Option Nat
  | [] => none
  | c :: cs =>
    match pyDigitVal c with
    | some v => digitsRest v cs
    | none => none

/-- Python 3 `int(s)` for a base-10 string: strip whitespace, then an
optional sign followed by a nonempty run of Unicode decimal digits with
single underscores allowed between digits; anything else raises
`ValueError` (modelled as `none`). -/
def pyInt (s : String) : Option Int :=
  match (pyStrip s).data with
  | [] => none
  | '+' :: rest => (parseDecimal rest).map Int.ofNat
  | '-' :: rest => (parseDecimal rest).map fun n => -(Int.ofNat n)
  | l => (parseDecimal l).map Int.ofNat

/-- Split a list of characters on a separator character; like Python's
`str.split(sep)` for a one-character `sep`, always nonempty. -/
def splitOnChar (sep : Char) : List Char → List (List Char)
  | [] => [[]]
  | c :: cs =>
    let r := splitOnChar sep cs
    if c = sep then [] :: r
    else
      match r with
      | [] => [[c]]
      | h :: t => (c :: h) :: t

/-- `os.path.basename`: everything after the last `/`. -/
def basename (s : String) : String :=
  ⟨(splitOnChar '/' s.data).getLastD s.data⟩

/-- `re.sub(r'\.py$', '', arg)`: remove one trailing `.py` if present. -/
def stripPySuffix (s : String) : String :=
  match s.data.reverse with
  | 'y' :: 'p' :: '.' :: rest => ⟨rest.reverse⟩
  | _ => s

/-- `c14n_prog_name(arg)`: canonical program name,
`os.path.basename(re.sub(r'\.py$', '', arg))`. -/
def c14n_prog_name (arg : String) : String :=
  basename (stripPySuffix arg)

/-! ### Filesystem model -/

/-- The filesystem: an association list from paths to file contents.
A path maps to at most one content (lookup returns the first binding). -/
abbrev FS := List (String × String)

/-- Content of the file at path `q`, `none` when absent (`ENOENT`). -/
def FS.lookup : FS → String → Option String
  | [], _ => none
  | (p, c) :: rest, q => if p = q then some c else FS.lookup rest q

/-- `os.unlink(q)`: remove every binding of path `q`. -/
def FS.erase : FS → String → FS
  | [], _ => []
  | (p, c) :: rest, q =>
    if p = q then FS.erase rest q else (p, c) :: FS.erase rest q

/-- Create (or overwrite) the file at path `p` with content `c`. -/
def FS.insert (fs : FS) (p : String) (c : String) : FS :=
  (p, c) :: FS.erase fs p

/-! ### Process-introspection model -/

/-- Outcome of `open('/proc/<pid>/cmdline').read()`: the raw
NUL-separated command line, `ENOENT` (no such process), or any other
`IOError`. -/
inductive CmdlineRes where
  | ok (raw : String)
  | enoent
  | otherErr
  deriving DecidableEq

/-- Outcome of `os.readlink('/proc/<pid>/exe')`: the executable path,
`EACCES`, or any other `OSError`. -/
inductive ExeRes where
  | ok (path : String)
  | eacces
  | otherErr
  deriving DecidableEq

/-- Ambient state of a run: the filesystem, the current process's
`sys.argv[0]`, and the `/proc` views of the other processes. -/
structure World where
  fs : FS
  argv0 : String
  cmdline : Int → CmdlineRes
  exeLink : Int → ExeRes

/-- Tokens of the other process's command line:
`read().split('\0')`, dropping a trailing empty token. -/
def splitCmdline (raw : String) : List String :=
  let toks := (splitOnChar '\x00' raw.data).map fun l => String.mk l
  if toks.getLastD "x" = "" then toks.dropLast else toks

/-! ### remove_if_stale_pidfile -/

/-- The body of `remove_if_stale_pidfile` up to the outermost
`except Exception` handler: `.ok fs` is a normal return with final
filesystem `fs`; `.error ()` is an exception reaching the outer handler
(e.g. `ValueError` from `int`, or a re-raised unexpected `IOError` /
`OSError`). The only filesystem mutations, the two `os.unlink(pidfile)`
calls, each immediately precede a `return`, so an exceptional run leaves
the filesystem untouched. -/
def remove_if_stale_pidfile_run (w : World) (pidfile : String) : Except Unit FS :=
  match FS.lookup w.fs pidfile with
  | none => .ok w.fs
  | some content =>
    match pyInt (pyStrip (readline content)) with
    | none => .error ()
    | some pid_maydaemon =>
      let i_am := c14n_prog_name w.argv0
      match w.cmdline pid_maydaemon with
      | .enoent => .ok (FS.erase w.fs pidfile)
      | .otherErr => .error ()
      | .ok raw =>
        let other_cmdline := splitCmdline raw
        if i_am ∈ other_cmdline.map c14n_prog_name then .ok w.fs
        else
          match w.exeLink pid_maydaemon with
          | .otherErr => .error ()
          | .eacces => .ok (FS.erase w.fs pidfile)
          | .ok full_pgm =>
            if i_am = basename full_pgm then .ok w.fs
            else .ok (FS.erase w.fs pidfile)

/-- `remove_if_stale_pidfile(pidfile)`: exceptions are logged and not
propagated, so the function always returns; it yields the resulting
filesystem. -/
def remove_if_stale_pidfile (w : World) (pidfile : String) : FS :=
  match remove_if_stale_pidfile_run w pidfile with
  | .ok fs => fs
  | .error _ => w.fs

/-! ### take_file_lock -/

/-- Result of `take_file_lock`: `ret = some b` is a normal return of `b`;
`ret = none` is a propagated `OSError` (errno other than `EEXIST`);
`fs` is the filesystem afterwards. -/
structure TflResult where
  ret : Option Bool
  fs : FS
  deriving DecidableEq

/-- `take_file_lock(own_file, lock_file, own_content)`.
`os.link` creates `lock_file` as a second name for `own_file` atomically:
it fails with `EEXIST` when `lock_file` exists and with `ENOENT` when
`own_file` is absent; the `finally` always runs `os.unlink(own_file)`.
An `EEXIST` failure returns `False`; with `own_file` absent the `ENOENT`
(from the link, or from the unlink in the `finally`) is re-raised. After
a successful link the lock file is re-read with
`read(len(own_content) + 1)` and compared to `own_content`; a mismatch
returns `False`, a match returns `True`. -/
def take_file_lock (fs : FS) (own_file lock_file own_content : String) : TflResult :=
  match FS.lookup fs own_file with
  | none => ⟨none, fs⟩
  | some oc =>
    match FS.lookup fs lock_file with
    | some _ => ⟨some false, FS.erase fs own_file⟩
    | none =>
      let fs1 := FS.erase (FS.insert fs lock_file oc) own_file
      if pyRead oc (own_content.length + 1) = own_content then
        ⟨some true, fs1⟩
      else
        ⟨some false, fs1⟩

/-! ### lock_pidfile_or_die -/

/-- The temporary candidate path `pidfile + '.' + str(pid)`. -/
def candidateFile (pidfile : String) (pid : Nat) : String :=
  pidfile ++ "." ++ toString pid

/-- The content written for process `pid`: `"%s\n" % pid`. -/
def pidContent (pid : Nat) : String :=
  toString pid ++ "\n"

/-- Result of `lock_pidfile_or_die`: either `sys.exit(code)` or a normal
return of the pid, each with the final filesystem. -/
inductive LpodResult where
  | exited (code : Nat) (fs : FS)
  | returned (pid : Nat) (fs : FS)
  deriving DecidableEq

/-- `lock_pidfile_or_die(pidfile)` run by process `pid`: remove a stale
pidfile, write `"%s\n" % pid` to the candidate file, and publish it with
`take_file_lock`; a `False` return triggers `sys.exit(1)`, and any
unexpected exception is logged and also ends in `sys.exit(1)`. -/
def lock_pidfile_or_die (w : World) (pidfile : String) (pid : Nat) : LpodResult :=
  let fs1 := remove_if_stale_pidfile w pidfile
  let fs2 := FS.insert fs1 (candidateFile pidfile pid) (pidContent pid)
  let r := take_file_lock fs2 (candidateFile pidfile pid) pidfile (pidContent pid)
  match r.ret with
  | some true => .returned pid r.fs
  | some false => .exited 1 r.fs
  | none => .exited 1 r.fs

/-! ### unlock_pidfile -/

/-- `unlock_pidfile(pidfile)` run by process `pid`: re-read the pidfile
with `read(len(pid) + 1)` and unlink it only when the content equals
`"%s\n" % pid`; a missing file (`IOError`) or foreign content only logs.
Every `IOError` / `OSError` is caught, so the function always returns. -/
def unlock_pidfile (fs : FS) (pid : Nat) (pidfile : String) : FS :=
  match FS.lookup fs pidfile with
  | none => fs
  | some content =>
    if pyRead content ((pidContent pid).length + 1) = pidContent pid then
      FS.erase fs pidfile
    else
      fs

/-! ### daemonize -/

/-- What `os.fork()` yields in the calling process: failure (`OSError`),
or success seen from the parent (child pid returned) or from the child
(zero returned). -/
inductive ForkResult where
  | fail
  | parent
  | child
  deriving DecidableEq

/-- Outcome of `daemonize()` for the calling process: the process exits
with `code`, or it survives the double fork and continues (the
grandchild). -/
inductive DaemonizeOutcome where
  | exited (code : Nat)
  | continues
  deriving DecidableEq

/-- `daemonize()` seen from one process, with `f1`, `f2` the outcomes of
its two `os.fork()` calls. A failed fork is logged and ends in
`sys.exit(1)`; the first-fork parent waits and `os._exit(0)`s; the
second-fork intermediate `os._exit(0)`s; the grandchild redirects its
standard streams best-effort and continues. `setsid`, `umask`, `chdir`
and the stream redirection do not touch the modelled filesystem. -/
def daemonize (f1 f2 : ForkResult) : DaemonizeOutcome :=
  match f1 with
  | .fail => .exited 1
  | .parent => .exited 0
  | .child =>
    match f2 with
    | .fail => .exited 1
    | .parent => .exited 0
    | .child => .continues

/-! ### pidfile_context -/

/-- Outcome of the `pidfile_context` context manager around a managed
body: the process exited during daemonization or acquisition, or the
body ran and the whole context finished normally (`ok`) or re-raised the
body's exception after the `finally` block (`raised`). -/
inductive CtxResult where
  | exited (code : Nat) (fs : FS)
  | ok (fs : FS)
  | raised (fs : FS)
  deriving DecidableEq

/-- `pidfile_context(pid_file_name, foreground)` run by process `pid`
around a body whose filesystem effect is `bodyFs` and which raises iff
`bodyRaises`: optionally daemonize, then `lock_pidfile_or_die`; the
`try/finally` always runs `unlock_pidfile` after the body, and a body
exception propagates afterwards. -/
def pidfile_context (w : World) (pid_file_name : String) (pid : Nat)
    (foreground : Bool) (f1 f2 : ForkResult)
    (bodyFs : FS → FS) (bodyRaises : Bool) : CtxResult :=
  match (if foreground then DaemonizeOutcome.continues else daemonize f1 f2) with
  | .exited c => .exited c w.fs
  | .continues =>
    match lock_pidfile_or_die w pid_file_name pid with
    | .exited c fs => .exited c fs
    | .returned _ fs =>
      let fs1 := bodyFs fs
      let fs2 := unlock_pidfile fs1 pid pid_file_name
      if bodyRaises then .raised fs2 else .ok fs2

/-! ### Basic lemmas about the filesystem model -/

theorem FS.lookup_erase_self (fs : FS) (p : String) :
    FS.lookup (FS.erase fs p) p = none := by
  induction fs with
  | nil => rfl
  | cons hd tl ih =>
    obtain ⟨a, c⟩ := hd
    by_cases h : a = p <;> simp [FS.erase, FS.lookup, h, ih]

theorem FS.lookup_erase_ne (fs : FS) (p q : String) (h : q ≠ p) :
    FS.lookup (FS.erase fs p) q = FS.lookup fs q := by
  induction fs with
  | nil => rfl
  | cons hd tl ih =>
    obtain ⟨a, c⟩ := hd
    by_cases h2 : a = p
    · subst h2
      have h4 : ¬a = q := fun hh => h hh.symm
      simp [FS.erase, FS.lookup, h4, ih]
    · by_cases h3 : a = q <;> simp [FS.erase, FS.lookup, h, h2, h3, ih]

theorem FS.lookup_insert_self (fs : FS) (p c : String) :
    FS.lookup (FS.insert fs p c) p = some c := by
  simp [FS.insert, FS.lookup]

theorem FS.lookup_insert_ne (fs : FS) (p c q : String) (h : q ≠ p) :
    FS.lookup (FS.insert fs p c) q = FS.lookup fs q := by
  simp [FS.insert, FS.lookup, Ne.symm h, FS.lookup_erase_ne fs p q h]

/-- `read(len(p) + 1)` returns `p` exactly when the whole content is `p`:
a longer content yields one extra character, a shorter one is itself. -/
theorem pyRead_succ_eq_iff (c p : String) :
    pyRead c (p.length + 1) = p ↔ c = p := by
  constructor
  · intro h
    have hd : c.data.take (p.length + 1) = p.data := congrArg String.data h
    have hlen := congrArg List.length hd
    rw [List.length_take] at hlen
    have hpl : p.length = p.data.length := rfl
    have hle : c.data.length ≤ p.length + 1 := by omega
    rw [List.take_of_length_le hle] at hd
    exact String.ext hd
  · intro h
    subst h
    apply String.ext
    exact List.take_of_length_le (Nat.le_succ _)

theorem candidateFile_ne (pidfile : String) (pid : Nat) :
    candidateFile pidfile pid ≠ pidfile := by
  intro h
  have hlen := congrArg String.length h
  rw [candidateFile, String.length_append, String.length_append] at hlen
  have h1 : (".").length = 1 := rfl
  omega

/-! ### Branch lemmas for take_file_lock -/

theorem take_file_lock_dest_present (fs : FS) (own lock c oc o : String)
    (hown : FS.lookup fs own = some oc) (hlock : FS.lookup fs lock = some o) :
    take_file_lock fs own lock c = ⟨some false, FS.erase fs own⟩ := by
  simp [take_file_lock, hown, hlock]

theorem take_file_lock_dest_absent (fs : FS) (own lock c : String)
    (hown : FS.lookup fs own = some c) (hlock : FS.lookup fs lock = none) :
    take_file_lock fs own lock c =
      ⟨some true, FS.erase (FS.insert fs lock c) own⟩ := by
  simp [take_file_lock, hown, hlock, (pyRead_succ_eq_iff c c).mpr rfl]

theorem take_file_lock_mismatch (fs : FS) (own lock c oc : String)
    (hown : FS.lookup fs own = some oc) (hlock : FS.lookup fs lock = none)
    (hne : pyRead oc (c.length + 1) ≠ c) :
    take_file_lock fs own lock c =
      ⟨some false, FS.erase (FS.insert fs lock oc) own⟩ := by
  simp [take_file_lock, hown, hlock, hne]

/-! ### Claim theorems -/

/-- C1: when the lock path already exists, `take_file_lock` returns
`False` and leaves the lock file's content unchanged (the candidate file
being present and distinct from the lock path, as the acquisition
protocol arranges); on every path — successful link, destination
present, or a propagated link failure — the candidate file is absent
afterwards; and of two sequential acquisitions of the same lock path,
exactly the first succeeds. -/
theorem take_file_lock_mutual_exclusion :
    (∀ (fs : FS) (own_file lock_file own_content oc oldc : String),
      own_file ≠ lock_file →
      FS.lookup fs own_file = some oc →
      FS.lookup fs lock_file = some oldc →
      (take_file_lock fs own_file lock_file own_content).ret = some false ∧
      FS.lookup (take_file_lock fs own_file lock_file own_content).fs lock_file
        = some oldc) ∧
    (∀ (fs : FS) (own_file lock_file own_content : String),
      FS.lookup (take_file_lock fs own_file lock_file own_content).fs own_file
        = none) ∧
    (∀ (fs : FS) (lock_file ownA ownB cA cB : String),
      FS.lookup fs lock_file = none →
      FS.lookup fs ownA = some cA →
      FS.lookup (take_file_lock fs ownA lock_file cA).fs ownB = some cB →
      (take_file_lock fs ownA lock_file cA).ret = some true ∧
      (take_file_lock (take_file_lock fs ownA lock_file cA).fs ownB lock_file
        cB).ret = some false) := by
  refine ⟨?_, ?_, ?_⟩
  · intro fs own lock c oc oldc hne hown hlock
    rw [take_file_lock_dest_present fs own lock c oc oldc hown hlock]
    exact ⟨rfl, (FS.lookup_erase_ne fs own lock (Ne.symm hne)).trans hlock⟩
  · intro fs own lock c
    cases hown : FS.lookup fs own with
    | none => simp [take_file_lock, hown]
    | some oc =>
      cases hlock : FS.lookup fs lock with
      | some o =>
        rw [take_file_lock_dest_present fs own lock c oc o hown hlock]
        exact FS.lookup_erase_self fs own
      | none =>
        simp only [take_file_lock, hown, hlock]
        split <;> exact FS.lookup_erase_self _ own
  · intro fs lock ownA ownB cA cB hlock hA hB
    have hne : lock ≠ ownA := by
      intro h
      rw [h, hA] at hlock
      exact Option.noConfusion hlock
    have hr1 := take_file_lock_dest_absent fs ownA lock cA hA hlock
    refine ⟨by rw [hr1], ?_⟩
    have hlock2 : FS.lookup (take_file_lock fs ownA lock cA).fs lock
        = some cA := by
      rw [hr1]
      show FS.lookup (FS.erase (FS.insert fs lock cA) ownA) lock = some cA
      rw [FS.lookup_erase_ne _ _ _ hne, FS.lookup_insert_self]
    rw [take_file_lock_dest_present _ ownB lock cB cB cA hB hlock2]

/-- Witness for C1 at concrete filesystems. -/
theorem take_file_lock_mutual_exclusion_witness :
    ((take_file_lock [("own", "7\n"), ("lock", "1\n")] "own" "lock" "7\n").ret
        = some false ∧
      FS.lookup (take_file_lock [("own", "7\n"), ("lock", "1\n")] "own" "lock"
        "7\n").fs "lock" = some "1\n") ∧
    FS.lookup (take_file_lock [("own", "7\n"), ("lock", "1\n")] "own" "lock"
      "7\n").fs "own" = none ∧
    ((take_file_lock [("a", "5\n"), ("b", "5\n")] "a" "L" "5\n").ret
        = some true ∧
      (take_file_lock (take_file_lock [("a", "5\n"), ("b", "5\n")] "a" "L"
        "5\n").fs "b" "L" "5\n").ret = some false) :=
  ⟨take_file_lock_mutual_exclusion.1 [("own", "7\n"), ("lock", "1\n")] "own"
      "lock" "7\n" "7\n" "1\n" (by decide) (by decide) (by decide),
    take_file_lock_mutual_exclusion.2.1 [("own", "7\n"), ("lock", "1\n")]
      "own" "lock" "7\n",
    take_file_lock_mutual_exclusion.2.2 [("a", "5\n"), ("b", "5\n")] "L" "a"
      "b" "5\n" "5\n" (by decide) (by decide) (by decide)⟩

/-- C2: after `lock_pidfile_or_die` returns normally in process `pid`,
the PID file contains exactly the decimal pid followed by a single
newline; and after a successful link, a byte-wise mismatch between the
re-read lock content and the written content makes `take_file_lock`
return `False`. -/
theorem pidfile_content_after_lock :
    (∀ (w : World) (pidfile : String) (pid : Nat) (fs' : FS),
      lock_pidfile_or_die w pidfile pid = .returned pid fs' →
      FS.lookup fs' pidfile = some (pidContent pid)) ∧
    (∀ (fs : FS) (own lock own_content oc : String),
      FS.lookup fs own = some oc →
      FS.lookup fs lock = none →
      pyRead oc (own_content.length + 1) ≠ own_content →
      (take_file_lock fs own lock own_content).ret = some false) := by
  constructor
  · intro w pidfile pid fs' h
    simp only [lock_pidfile_or_die] at h
    set fs1 := remove_if_stale_pidfile w pidfile with hfs1
    set own := candidateFile pidfile pid with hown1
    set c := pidContent pid with hc1
    have hown : FS.lookup (FS.insert fs1 own c) own = some c :=
      FS.lookup_insert_self fs1 own c
    cases hlock : FS.lookup (FS.insert fs1 own c) pidfile with
    | some o =>
      rw [take_file_lock_dest_present _ own pidfile c c o hown hlock] at h
      simp at h
    | none =>
      rw [take_file_lock_dest_absent _ own pidfile c hown hlock] at h
      simp only [LpodResult.returned.injEq, true_and] at h
      rw [← h, FS.lookup_erase_ne _ _ _ (Ne.symm (candidateFile_ne pidfile pid)),
        FS.lookup_insert_self]
  · intro fs own lock c oc hown hlock hmis
    rw [take_file_lock_mismatch fs own lock c oc hown hlock hmis]

/-- A world with an empty filesystem and no other live processes. -/
def wFree : World :=
  { fs := []
    argv0 := "/usr/bin/prog"
    cmdline := fun _ => .enoent
    exeLink := fun _ => .eacces }

/-- Witness for C2: process 7 acquires an absent lock and the PID file
then reads `"7\n"`; a tampered content makes the lock untrusted. -/
theorem pidfile_content_after_lock_witness :
    FS.lookup [("p", pidContent 7)] "p" = some (pidContent 7) ∧
    (take_file_lock [("o", "XX")] "o" "l" "7\n").ret = some false :=
  ⟨pidfile_content_after_lock.1 wFree "p" 7 [("p", pidContent 7)] (by decide),
    pidfile_content_after_lock.2 [("o", "XX")] "o" "l" "7\n" "XX" (by decide)
      (by decide) (by decide)⟩

/-- C3: for a PID file recording process `p`, `remove_if_stale_pidfile`
deletes the file when no process `p` exists; deletes it when `p` is live
but no canonicalized command-line token equals the current canonical
name and the executable's basename differs from it; and leaves it
untouched when a token matches, or when the executable basename
matches. -/
theorem remove_if_stale_pidfile_cases (w : World) (pidfile content : String)
    (p : Int)
    (hfile : FS.lookup w.fs pidfile = some content)
    (hpid : pyInt (pyStrip (readline content)) = some p) :
    (w.cmdline p = .enoent →
      remove_if_stale_pidfile w pidfile = FS.erase w.fs pidfile ∧
      FS.lookup (remove_if_stale_pidfile w pidfile) pidfile = none) ∧
    (∀ raw, w.cmdline p = .ok raw →
      c14n_prog_name w.argv0 ∈ (splitCmdline raw).map c14n_prog_name →
      remove_if_stale_pidfile w pidfile = w.fs) ∧
    (∀ raw full_pgm, w.cmdline p = .ok raw →
      c14n_prog_name w.argv0 ∉ (splitCmdline raw).map c14n_prog_name →
      w.exeLink p = .ok full_pgm →
      c14n_prog_name w.argv0 ≠ basename full_pgm →
      remove_if_stale_pidfile w pidfile = FS.erase w.fs pidfile ∧
      FS.lookup (remove_if_stale_pidfile w pidfile) pidfile = none) ∧
    (∀ raw full_pgm, w.cmdline p = .ok raw →
      c14n_prog_name w.argv0 ∉ (splitCmdline raw).map c14n_prog_name →
      w.exeLink p = .ok full_pgm →
      c14n_prog_name w.argv0 = basename full_pgm →
      remove_if_stale_pidfile w pidfile = w.fs) := by
  refine ⟨?_, ?_, ?_, ?_⟩
  · intro hdead
    have he : remove_if_stale_pidfile w pidfile = FS.erase w.fs pidfile := by
      simp [remove_if_stale_pidfile, remove_if_stale_pidfile_run, hfile, hpid,
        hdead]
    exact ⟨he, he ▸ FS.lookup_erase_self w.fs pidfile⟩
  · intro raw hcmd hmem
    simp [remove_if_stale_pidfile, remove_if_stale_pidfile_run, hfile, hpid,
      hcmd, hmem]
  · intro raw full_pgm hcmd hmem hexe hbn
    have he : remove_if_stale_pidfile w pidfile = FS.erase w.fs pidfile := by
      simp [remove_if_stale_pidfile, remove_if_stale_pidfile_run, hfile, hpid,
        hcmd, hmem, hexe, hbn]
    exact ⟨he, he ▸ FS.lookup_erase_self w.fs pidfile⟩
  · intro raw full_pgm hcmd hmem hexe hbn
    simp [remove_if_stale_pidfile, remove_if_stale_pidfile_run, hfile, hpid,
      hcmd, hmem, hexe, hbn]

/-- A world whose PID file records process 42, run by `/usr/bin/prog`;
no process is live. -/
def wDead : World :=
  { fs := [("lock", "42\n")]
    argv0 := "/usr/bin/prog"
    cmdline := fun _ => .enoent
    exeLink := fun _ => .eacces }

/-- Witness for C3: a dead owner and an unrelated live owner lose the
PID file; a command-line match or an executable-name match keeps it. -/
theorem remove_if_stale_pidfile_cases_witness :
    (remove_if_stale_pidfile wDead "lock" = FS.erase wDead.fs "lock" ∧
      FS.lookup (remove_if_stale_pidfile wDead "lock") "lock" = none) ∧
    remove_if_stale_pidfile
      { wDead with cmdline := fun _ => .ok "python\x00/opt/prog.py" } "lock"
      = wDead.fs ∧
    (remove_if_stale_pidfile
        { wDead with
          cmdline := fun _ => .ok "other"
          exeLink := fun _ => .ok "/bin/other" } "lock"
      = FS.erase wDead.fs "lock" ∧
      FS.lookup (remove_if_stale_pidfile
        { wDead with
          cmdline := fun _ => .ok "other"
          exeLink := fun _ => .ok "/bin/other" } "lock") "lock" = none) ∧
    remove_if_stale_pidfile
      { wDead with
        cmdline := fun _ => .ok "other"
        exeLink := fun _ => .ok "/bin/prog" } "lock"
      = wDead.fs :=
  ⟨(remove_if_stale_pidfile_cases wDead "lock" "42\n" 42 (by decide)
      (by decide)).1 rfl,
    (remove_if_stale_pidfile_cases
      { wDead with cmdline := fun _ => .ok "python\x00/opt/prog.py" } "lock"
      "42\n" 42 (by decide) (by decide)).2.1 "python\x00/opt/prog.py" rfl
      (by decide),
    (remove_if_stale_pidfile_cases
      { wDead with
        cmdline := fun _ => .ok "other"
        exeLink := fun _ => .ok "/bin/other" } "lock" "42\n" 42 (by decide)
      (by decide)).2.2.1 "other" "/bin/other" rfl (by decide) rfl (by decide),
    (remove_if_stale_pidfile_cases
      { wDead with
        cmdline := fun _ => .ok "other"
        exeLink := fun _ => .ok "/bin/prog" } "lock" "42\n" 42 (by decide)
      (by decide)).2.2.2 "other" "/bin/prog" rfl (by decide) rfl (by decide)⟩

/-- C6: `remove_if_stale_pidfile` cannot propagate an exception (it is a
total function of the world), and whenever its body raises an unexpected
error — reaching the outermost handler — the call returns with the
filesystem, hence the PID file, untouched. -/
theorem remove_if_stale_pidfile_swallows_errors (w : World) (pidfile : String)
    (h : remove_if_stale_pidfile_run w pidfile = .error ()) :
    remove_if_stale_pidfile w pidfile = w.fs := by
  simp [remove_if_stale_pidfile, h]

/-- Witness for C6: an unexpected `IOError` while reading the live
process's command line is swallowed and the PID file stays. -/
theorem remove_if_stale_pidfile_swallows_errors_witness :
    remove_if_stale_pidfile { wDead with cmdline := fun _ => .otherErr }
      "lock" = ({ wDead with cmdline := fun _ => .otherErr } : World).fs :=
  remove_if_stale_pidfile_swallows_errors
    { wDead with cmdline := fun _ => .otherErr } "lock" rfl

/-- C7: a live recorded process with no canonicalized command-line token
matching the current name, whose executable link resolution fails with
`EACCES`, is treated as stale: the PID file is deleted. -/
theorem remove_if_stale_pidfile_eacces_removes (w : World)
    (pidfile content raw : String) (p : Int)
    (hfile : FS.lookup w.fs pidfile = some content)
    (hpid : pyInt (pyStrip (readline content)) = some p)
    (hcmd : w.cmdline p = .ok raw)
    (hmem : c14n_prog_name w.argv0 ∉ (splitCmdline raw).map c14n_prog_name)
    (hexe : w.exeLink p = .eacces) :
    remove_if_stale_pidfile w pidfile = FS.erase w.fs pidfile ∧
    FS.lookup (remove_if_stale_pidfile w pidfile) pidfile = none := by
  have he : remove_if_stale_pidfile w pidfile = FS.erase w.fs pidfile := by
    simp [remove_if_stale_pidfile, remove_if_stale_pidfile_run, hfile, hpid,
      hcmd, hmem, hexe]
  exact ⟨he, he ▸ FS.lookup_erase_self w.fs pidfile⟩

/-- Witness for C7: process 42 is live and unrelated, `/proc/42/exe` is
unreadable (`EACCES`); the PID file is removed. -/
theorem remove_if_stale_pidfile_eacces_removes_witness :
    remove_if_stale_pidfile { wDead with cmdline := fun _ => .ok "other" }
        "lock" = FS.erase wDead.fs "lock" ∧
    FS.lookup (remove_if_stale_pidfile
      { wDead with cmdline := fun _ => .ok "other" } "lock") "lock" = none :=
  remove_if_stale_pidfile_eacces_removes
    { wDead with cmdline := fun _ => .ok "other" } "lock" "42\n" "other" 42
    (by decide) (by decide) rfl (by decide) rfl

/-- C10: when the PID file's first line does not parse as a decimal
integer, the `ValueError` from `int` reaches the outermost handler:
`remove_if_stale_pidfile` raises nothing and leaves the filesystem,
hence the malformed file, untouched. -/
theorem remove_if_stale_pidfile_malformed (w : World) (pidfile content : String)
    (hfile : FS.lookup w.fs pidfile = some content)
    (hbad : pyInt (pyStrip (readline content)) = none) :
    remove_if_stale_pidfile w pidfile = w.fs := by
  simp [remove_if_stale_pidfile, remove_if_stale_pidfile_run, hfile, hbad]

/-- Witness for C10: a PID file containing `"bogus"` is never cleaned
up. -/
theorem remove_if_stale_pidfile_malformed_witness :
    remove_if_stale_pidfile { wDead with fs := [("lock", "bogus")] } "lock"
      = ({ wDead with fs := [("lock", "bogus")] } : World).fs :=
  remove_if_stale_pidfile_malformed { wDead with fs := [("lock", "bogus")] }
    "lock" "bogus" (by decide) (by decide)

/-- C4: if the acquisition's `take_file_lock` step does not return
`True` — it returned `False`, or it raised an unexpected error — then
`lock_pidfile_or_die` does not return: it exits with status 1, which is
non-zero. -/
theorem lock_pidfile_or_die_exits_on_failure (w : World) (pidfile : String)
    (pid : Nat)
    (h : (take_file_lock
        (FS.insert (remove_if_stale_pidfile w pidfile)
          (candidateFile pidfile pid) (pidContent pid))
        (candidateFile pidfile pid) pidfile (pidContent pid)).ret
      ≠ some true) :
    lock_pidfile_or_die w pidfile pid =
      .exited 1 (take_file_lock
        (FS.insert (remove_if_stale_pidfile w pidfile)
          (candidateFile pidfile pid) (pidContent pid))
        (candidateFile pidfile pid) pidfile (pidContent pid)).fs ∧
    (1 : Nat) ≠ 0 := by
  refine ⟨?_, one_ne_zero⟩
  simp only [lock_pidfile_or_die]
  cases hr : (take_file_lock
      (FS.insert (remove_if_stale_pidfile w pidfile)
        (candidateFile pidfile pid) (pidContent pid))
      (candidateFile pidfile pid) pidfile (pidContent pid)).ret with
  | none => rfl
  | some b =>
    cases b with
    | false => rfl
    | true => exact absurd hr h

/-- Witness for C4: the lock is held by a live instance of the same
program, so process 9's acquisition fails and it exits with status 1. -/
theorem lock_pidfile_or_die_exits_on_failure_witness :
    lock_pidfile_or_die
      { wDead with cmdline := fun _ => .ok "prog" } "lock" 9 =
      .exited 1 (take_file_lock
        (FS.insert (remove_if_stale_pidfile
          { wDead with cmdline := fun _ => .ok "prog" } "lock")
          (candidateFile "lock" 9) (pidContent 9))
        (candidateFile "lock" 9) "lock" (pidContent 9)).fs ∧
    (1 : Nat) ≠ 0 :=
  lock_pidfile_or_die_exits_on_failure
    { wDead with cmdline := fun _ => .ok "prog" } "lock" 9 (by decide)

/-- C5: `unlock_pidfile` (a total function: every `IOError` / `OSError`
is caught) deletes the PID file exactly when its content is the calling
process's pid followed by a newline; on any other content, and on a
missing file, the filesystem is unchanged. -/
theorem unlock_pidfile_only_own (fs : FS) (pid : Nat) (pidfile : String) :
    (∀ content, FS.lookup fs pidfile = some content →
      unlock_pidfile fs pid pidfile =
        (if content = pidContent pid then FS.erase fs pidfile else fs) ∧
      (FS.lookup (unlock_pidfile fs pid pidfile) pidfile = none ↔
        content = pidContent pid)) ∧
    (FS.lookup fs pidfile = none → unlock_pidfile fs pid pidfile = fs) := by
  constructor
  · intro content hc
    have hu : unlock_pidfile fs pid pidfile =
        (if content = pidContent pid then FS.erase fs pidfile else fs) := by
      simp only [unlock_pidfile, hc, pyRead_succ_eq_iff]
    refine ⟨hu, ?_⟩
    rw [hu]
    by_cases h : content = pidContent pid
    · simp [h, FS.lookup_erase_self]
    · simp [h, hc]
  · intro hnone
    simp [unlock_pidfile, hnone]

/-- Witness for C5: process 9 unlinks its own PID file, leaves a foreign
one (`"999\n"`) in place, and tolerates a missing one. -/
theorem unlock_pidfile_only_own_witness :
    (unlock_pidfile [("p", "9\n")] 9 "p" =
        (if ("9\n" : String) = pidContent 9 then FS.erase [("p", "9\n")] "p"
          else [("p", "9\n")]) ∧
      (FS.lookup (unlock_pidfile [("p", "9\n")] 9 "p") "p" = none ↔
        ("9\n" : String) = pidContent 9)) ∧
    (unlock_pidfile [("p", "999\n")] 100 "p" =
        (if ("999\n" : String) = pidContent 100 then
          FS.erase [("p", "999\n")] "p" else [("p", "999\n")]) ∧
      (FS.lookup (unlock_pidfile [("p", "999\n")] 100 "p") "p" = none ↔
        ("999\n" : String) = pidContent 100)) ∧
    unlock_pidfile [] 9 "p" = [] :=
  ⟨(unlock_pidfile_only_own [("p", "9\n")] 9 "p").1 "9\n" (by decide),
    (unlock_pidfile_only_own [("p", "999\n")] 100 "p").1 "999\n" (by decide),
    (unlock_pidfile_only_own [] 9 "p").2 rfl⟩

/-- C8: once the daemonization phase continues and `lock_pidfile_or_die`
returns, `pidfile_context` performs the release (`unlock_pidfile` on the
PID file path) both when the body returns normally and when it raises,
and in the latter case the exception still propagates after release. -/
theorem pidfile_context_always_releases (w : World) (pidfile : String)
    (pid : Nat) (foreground : Bool) (f1 f2 : ForkResult) (bodyFs : FS → FS)
    (fs : FS)
    (hd : (if foreground then DaemonizeOutcome.continues else daemonize f1 f2)
      = .continues)
    (hl : lock_pidfile_or_die w pidfile pid = .returned pid fs) :
    pidfile_context w pidfile pid foreground f1 f2 bodyFs false =
      .ok (unlock_pidfile (bodyFs fs) pid pidfile) ∧
    pidfile_context w pidfile pid foreground f1 f2 bodyFs true =
      .raised (unlock_pidfile (bodyFs fs) pid pidfile) := by
  constructor <;> simp [pidfile_context, hd, hl]

/-- Witness for C8: process 7 acquires the lock in the foreground; the
body's effect survives, the release runs, and a raising body still ends
in `raised`. -/
theorem pidfile_context_always_releases_witness :
    pidfile_context wFree "p" 7 true .child .child (fun fs => fs) false =
      .ok (unlock_pidfile [("p", pidContent 7)] 7 "p") ∧
    pidfile_context wFree "p" 7 true .child .child (fun fs => fs) true =
      .raised (unlock_pidfile [("p", pidContent 7)] 7 "p") :=
  pidfile_context_always_releases wFree "p" 7 true .child .child
    (fun fs => fs) [("p", pidContent 7)] rfl (by decide)

/-- C9: a failure of either `os.fork()` makes `daemonize` exit with
status 1 (non-zero); whenever `daemonize` continues past the double
fork, neither duplication failed. -/
theorem daemonize_fork_failure_fatal :
    (∀ f2, daemonize .fail f2 = .exited 1) ∧
    daemonize .child .fail = .exited 1 ∧
    (∀ f1 f2, daemonize f1 f2 = .continues → f1 ≠ .fail ∧ f2 ≠ .fail) ∧
    (1 : Nat) ≠ 0 := by
  refine ⟨fun f2 => rfl, rfl, ?_, one_ne_zero⟩
  intro f1 f2 h
  cases f1 <;> cases f2 <;> simp_all [daemonize]

/-- Witness for C9 at concrete fork outcomes. -/
theorem daemonize_fork_failure_fatal_witness :
    daemonize .fail .child = .exited 1 ∧
    daemonize .child .fail = .exited 1 ∧
    (ForkResult.child ≠ .fail ∧ ForkResult.child ≠ .fail) ∧
    (1 : Nat) ≠ 0 :=
  ⟨daemonize_fork_failure_fatal.1 .child,
    daemonize_fork_failure_fatal.2.1,
    daemonize_fork_failure_fatal.2.2.1 .child .child rfl,
    daemonize_fork_failure_fatal.2.2.2⟩

end Daemonize
